import Mathlib

/-!
Verification of the Aliyun SMS SDK (zsqk/aliyun-sms-sdk-deno, `src/sms.ts`).

The development shallowly embeds the signing pipeline of the `AliSMS` class:

* `specParams` (sms.ts:303-317): canonicalization — sort the parameter keys
  in ascending code-unit order (JS `Array.prototype.sort` default comparator),
  skip the `Signature` key, render `key=encodeURIComponent(String(value))`
  pairs joined by `&`.
* `stringToSign` (sms.ts:324-326): `` `${method}&%2F&` `` followed by the
  canonical string percent-encoded a second time.
* `hmac` (sms.ts:292-296): base64 of HMAC-SHA1 with key `secret + "&"`.
* `sendSMSParams` / `querySendDetailsParams` (sms.ts:120-136, 189-206):
  request parameter sets of the two operations, with the per-call timestamp
  and nonce passed in as arguments (they are produced by `getNowISOTime` /
  `getNonce`, which only feed these fields).
* `mapSendSMSResp` / `mapQueryResp` (sms.ts:157-172, 227-266): mapping of the
  parsed JSON response body into the typed results.  JavaScript property
  access on `undefined` throws a `TypeError`, so the query mapping lands in
  `Except`: `Except.error` models a thrown error / rejected promise.

JS dynamic values that reach `String(...)` are embedded as `JSVal`
(string, number, or array of strings), and `jsValToString` models the JS
`String()` coercion for exactly those shapes (arrays join with `","`,
numbers print in decimal).  JS strings are compared by UTF-16 code units;
for the code-point range used by the SDK (ASCII keys) this coincides with
the code-point comparison `charListLt` used here.
-/

set_option maxRecDepth 1000000

/-- A JavaScript value that the SDK stores in a request-parameter record:
the source declares `params: Record<string, unknown>` but only ever inserts
strings, numbers, and arrays of strings. -/
inductive JSVal where
  | str : String → JSVal
  | num : Nat → JSVal
  | arr : List String → JSVal
deriving DecidableEq

/-- JS `String(v)` for the three shapes in `JSVal`: identity on strings,
decimal rendering of numbers, comma-joined elements for arrays
(`Array.prototype.toString` is `join(",")`). -/
def jsValToString : JSVal → String
  | .str s => s
  | .num n => toString n
  | .arr l => String.intercalate "," l

/-- UTF-8 encoding of one character, as byte values. -/
def utf8Bytes (c : Char) : List Nat :=
  let n := c.toNat
  if n < 128 then [n]
  else if n < 2048 then [192 + n / 64, 128 + n % 64]
  else if n < 65536 then [224 + n / 4096, 128 + (n / 64) % 64, 128 + n % 64]
  else [240 + n / 262144, 128 + (n / 4096) % 64, 128 + (n / 64) % 64, 128 + n % 64]

/-- The characters JS `encodeURIComponent` leaves unescaped:
`A-Z a-z 0-9 - _ . ! ~ * ' ( )` (ECMA-262 `uriUnescaped`). -/
def isURIUnreservedJS (c : Char) : Bool :=
  (65 ≤ c.toNat && c.toNat ≤ 90) || (97 ≤ c.toNat && c.toNat ≤ 122) ||
  (48 ≤ c.toNat && c.toNat ≤ 57) ||
  c == '-' || c == '_' || c == '.' || c == '!' || c == '~' || c == '*' ||
  c == '\'' || c == '(' || c == ')'

/-- Upper-case hexadecimal digit, as produced by `encodeURIComponent`. -/
def hexDigitUpper (n : Nat) : Char :=
  if n < 10 then Char.ofNat (48 + n) else Char.ofNat (55 + n)

/-- Percent-escape `%XY` of one byte. -/
def pctByte (b : Nat) : List Char :=
  ['%', hexDigitUpper (b / 16), hexDigitUpper (b % 16)]

/-- Action of `encodeURIComponent` on a single character: kept verbatim when in the
unescaped set, otherwise every UTF-8 byte is percent-escaped. -/
def encURIChar (c : Char) : List Char :=
  if isURIUnreservedJS c then [c] else (utf8Bytes c).flatMap pctByte

/-- JS `encodeURIComponent`. -/
def encodeURIComponent (s : String) : String :=
  ⟨s.data.flatMap encURIChar⟩

/-- Lexicographic comparison of character lists by code point — the order JS
`Array.prototype.sort`'s default comparator induces on the (ASCII) key
strings of this SDK. -/
def charListLt : List Char → List Char → Bool
  | [], [] => false
  | [], _ :: _ => true
  | _ :: _, [] => false
  | a :: as, b :: bs =>
    if a < b then true
    else if b < a then false
    else charListLt as bs

/-- JS `<` on strings (restricted to the BMP range used here). -/
def strLtJS (a b : String) : Bool := charListLt a.data b.data

/-- The ordering `Array.prototype.sort` establishes between two
key-value pairs: `a` may precede `b` when `b.1 < a.1` fails. -/
def keyLe (a b : String × JSVal) : Prop := strLtJS b.1 a.1 = false

instance : DecidableRel keyLe :=
  fun a b => inferInstanceAs (Decidable (strLtJS b.1 a.1 = false))

/-- Embeds `AliSMS.specParams` (sms.ts:303-317): sort the entries by key
(`Object.keys(params); keys.sort()`), then for every key other than
`Signature` append `` `&${v}=${encodeURIComponent(String(params[v]))}` ``,
and finally drop the leading `&` (`sign.substring(1)`).  A JS object has
unique keys, so sorting key-value pairs agrees with sorting the keys and
looking each one up. -/
def specParams (params : List (String × JSVal)) : String :=
  let keysSorted := List.insertionSort keyLe params
  let sign := keysSorted.foldl
    (fun acc kv =>
      if kv.1 ≠ "Signature" then
        acc ++ "&" ++ kv.1 ++ "=" ++ encodeURIComponent (jsValToString kv.2)
      else acc) ""
  ⟨sign.data.drop 1⟩

/-- The canonical query string of `specParams`, kept as a list of
`(key, encoded value)` pairs: sorted, with the `Signature` entry removed and
each value passed through `encodeURIComponent ∘ String(...)`. -/
def specPairs (params : List (String × JSVal)) : List (String × String) :=
  ((List.insertionSort keyLe params).filter (fun kv => kv.1 != "Signature")).map
    (fun kv => (kv.1, encodeURIComponent (jsValToString kv.2)))

/-- One rendered `key=value` segment of the canonical query string. -/
def renderPair (kv : String × String) : String := kv.1 ++ "=" ++ kv.2

/-- Join query segments with `&`. -/
def ampJoin : List String → String
  | [] => ""
  | [x] => x
  | x :: y :: rest => x ++ "&" ++ ampJoin (y :: rest)

/-- Embeds `AliSMS.stringToSign` (sms.ts:324-326):
`` `${method}&%2F&` + encodeURIComponent(paramsStr) ``. -/
def stringToSign (method : String) (paramsStr : String) : String :=
  method ++ "&%2F&" ++ encodeURIComponent paramsStr

/-! ### SHA-1, HMAC-SHA1 and base64

`AliSMS.hmac` delegates to `hmac({hash: 'SHA-1', s: secret + '&'}, sign)` of
deno.land/x/somefn (WebCrypto HMAC-SHA1) and base64-encodes the raw bytes
with the std `encoding/base64` module.  Both are embedded here from their
specifications (RFC 3174, RFC 2104, RFC 4648) over byte lists, with 32-bit
words as `Nat` reduced `% 2^32`. -/

/-- The constant `2^32`, word modulus of SHA-1. -/
def pow32 : Nat := 4294967296

/-- Left rotation of a 32-bit word. -/
def rotl32 (n x : Nat) : Nat :=
  ((x <<< n) ||| (x >>> (32 - n))) % pow32

/-- Big-endian assembly of 4-byte groups into 32-bit words. -/
def bytesToWords : List Nat → List Nat
  | b0 :: b1 :: b2 :: b3 :: rest =>
    (b0 * 16777216 + b1 * 65536 + b2 * 256 + b3) :: bytesToWords rest
  | _ => []

/-- Big-endian bytes of a 32-bit word. -/
def wordBytes (w : Nat) : List Nat :=
  [w / 16777216 % 256, w / 65536 % 256, w / 256 % 256, w % 256]

/-- SHA-1 message padding: `0x80`, zeros to 56 mod 64, then the bit length
as a big-endian 64-bit integer. -/
def sha1Pad (msg : List Nat) : List Nat :=
  let len := msg.length
  let zeros := (64 + 56 - (len + 1) % 64) % 64
  let bitLen := len * 8
  msg ++ [128] ++ List.replicate zeros 0 ++
    [bitLen / 72057594037927936 % 256, bitLen / 281474976710656 % 256,
     bitLen / 1099511627776 % 256, bitLen / 4294967296 % 256,
     bitLen / 16777216 % 256, bitLen / 65536 % 256, bitLen / 256 % 256,
     bitLen % 256]

/-- Split into 64-byte blocks (fuel-indexed to keep recursion structural). -/
def chunk64 : Nat → List Nat → List (List Nat)
  | 0, _ => []
  | _, [] => []
  | fuel + 1, l => l.take 64 :: chunk64 fuel (l.drop 64)

/-- Message-schedule extension; `acc` holds the words produced so far in
reverse order, so `w[i-3]`, `w[i-8]`, `w[i-14]`, `w[i-16]` sit at positions
2, 7, 13, 15. -/
def sha1ExtendAux : List Nat → Nat → List Nat
  | acc, 0 => acc
  | acc, n + 1 =>
    let w3 := acc.getD 2 0
    let w8 := acc.getD 7 0
    let w14 := acc.getD 13 0
    let w16 := acc.getD 15 0
    sha1ExtendAux (rotl32 1 (((w3 ^^^ w8) ^^^ w14) ^^^ w16) :: acc) n

/-- Extend 16 schedule words to 80. -/
def sha1Extend (ws : List Nat) : List Nat :=
  (sha1ExtendAux ws.reverse 64).reverse

/-- The SHA-1 round function `f_t`. -/
def sha1F (i b c d : Nat) : Nat :=
  if i < 20 then (b &&& c) ||| ((b ^^^ 4294967295) &&& d)
  else if i < 40 then (b ^^^ c) ^^^ d
  else if i < 60 then ((b &&& c) ||| (b &&& d)) ||| (c &&& d)
  else (b ^^^ c) ^^^ d

/-- The SHA-1 round constants `K_t`. -/
def sha1K (i : Nat) : Nat :=
  if i < 20 then 1518500249
  else if i < 40 then 1859775393
  else if i < 60 then 2400959708
  else 3395469782

/-- The 80 SHA-1 rounds over one block's schedule. -/
def sha1Rounds :
    List Nat → Nat → Nat × Nat × Nat × Nat × Nat → Nat × Nat × Nat × Nat × Nat
  | [], _, st => st
  | w :: ws, i, (a, b, c, d, e) =>
    let temp := (rotl32 5 a + sha1F i b c d + e + sha1K i + w) % pow32
    sha1Rounds ws (i + 1) (temp, a, rotl32 30 b, c, d)

/-- Process one 64-byte block into the chaining state. -/
def sha1Block (h : Nat × Nat × Nat × Nat × Nat) (block : List Nat) :
    Nat × Nat × Nat × Nat × Nat :=
  let w := sha1Extend (bytesToWords block)
  let (h0, h1, h2, h3, h4) := h
  let (a, b, c, d, e) := sha1Rounds w 0 h
  ((h0 + a) % pow32, (h1 + b) % pow32, (h2 + c) % pow32, (h3 + d) % pow32,
   (h4 + e) % pow32)

/-- SHA-1 of a byte list, as 20 bytes. -/
def sha1 (msg : List Nat) : List Nat :=
  let padded := sha1Pad msg
  let blocks := chunk64 padded.length padded
  let (h0, h1, h2, h3, h4) :=
    blocks.foldl sha1Block (1732584193, 4023233417, 2562383102, 271733878, 3285377520)
  wordBytes h0 ++ wordBytes h1 ++ wordBytes h2 ++ wordBytes h3 ++ wordBytes h4

/-- HMAC-SHA1 (RFC 2104): over-long keys are hashed, the key is zero-padded
to the 64-byte block, and the digest is
`SHA1((K ⊕ opad) ∥ SHA1((K ⊕ ipad) ∥ msg))`. -/
def hmacSha1 (key msg : List Nat) : List Nat :=
  let k0 := if key.length > 64 then sha1 key else key
  let kPadded := k0 ++ List.replicate (64 - k0.length) 0
  let iKey := kPadded.map (fun b => b ^^^ 54)
  let oKey := kPadded.map (fun b => b ^^^ 92)
  sha1 (oKey ++ sha1 (iKey ++ msg))

/-- The standard base64 alphabet. -/
def base64Chars : List Char :=
  "ABCDEFGHIJKLMNOPQRSTUVWXYZabcdefghijklmnopqrstuvwxyz0123456789+/".data

/-- Standard base64 with `=` padding (RFC 4648 §4). -/
def base64Encode : List Nat → List Char
  | [] => []
  | [b0] =>
    [base64Chars.getD (b0 / 4) 'A', base64Chars.getD (b0 % 4 * 16) 'A', '=', '=']
  | [b0, b1] =>
    [base64Chars.getD (b0 / 4) 'A', base64Chars.getD (b0 % 4 * 16 + b1 / 16) 'A',
     base64Chars.getD (b1 % 16 * 4) 'A', '=']
  | b0 :: b1 :: b2 :: rest =>
    base64Chars.getD (b0 / 4) 'A' :: base64Chars.getD (b0 % 4 * 16 + b1 / 16) 'A' ::
    base64Chars.getD (b1 % 16 * 4 + b2 / 64) 'A' :: base64Chars.getD (b2 % 64) 'A' ::
    base64Encode rest

/-- UTF-8 bytes of a string. -/
def strBytes (s : String) : List Nat := s.data.flatMap utf8Bytes

/-- Embeds `AliSMS.hmac` (sms.ts:292-296): base64 of the HMAC-SHA1 of `sign` under
the key `secret + '&'` (`secretSuffix = '&'`). -/
def hmac (sign secret : String) : String :=
  ⟨base64Encode (hmacSha1 (strBytes (secret ++ "&")) (strBytes sign))⟩

/-! ### The two operations' request parameter sets -/

/-- JS truthiness of an optional string argument: `if (x)` passes exactly
when `x` is present and non-empty. -/
def jsTruthy : Option String → Bool
  | none => false
  | some s => s != ""

/-- The request parameters `sendSMS` builds (sms.ts:120-136), in source
insertion order; `timestamp` and `nonce` stand for the values of
`getNowISOTime()` and `getNonce()`.  `TemplateParam` is added only when
`if (tplParam)` passes. -/
def sendSMSParams (accessKeyID timestamp : String) (nonce : Nat)
    (phoneNumbers : List String) (signName tplCode : String)
    (tplParam : Option String) : List (String × JSVal) :=
  [("AccessKeyId", .str accessKeyID),
   ("Action", .str "SendSms"),
   ("Format", .str "JSON"),
   ("Version", .str "2017-05-25"),
   ("Timestamp", .str timestamp),
   ("SignatureNonce", .num nonce),
   ("SignatureMethod", .str "HMAC-SHA1"),
   ("SignatureVersion", .str "1.0"),
   ("PhoneNumbers", .arr phoneNumbers),
   ("SignName", .str signName),
   ("TemplateCode", .str tplCode)] ++
  (if jsTruthy tplParam then [("TemplateParam", JSVal.str (tplParam.getD ""))] else [])

/-- The request parameters `querySendDetails` builds (sms.ts:189-206), in
source insertion order; `BizID` is added only when `if (bizID)` passes. -/
def querySendDetailsParams (accessKeyID timestamp : String) (nonce : Nat)
    (phoneNumber sendDate : String) (pageSize currentPage : Nat)
    (bizID : Option String) : List (String × JSVal) :=
  [("AccessKeyId", .str accessKeyID),
   ("Action", .str "QuerySendDetails"),
   ("Format", .str "JSON"),
   ("Version", .str "2017-05-25"),
   ("Timestamp", .str timestamp),
   ("SignatureNonce", .num nonce),
   ("SignatureMethod", .str "HMAC-SHA1"),
   ("SignatureVersion", .str "1.0"),
   ("PhoneNumber", .str phoneNumber),
   ("SendDate", .str sendDate),
   ("PageSize", .num pageSize),
   ("CurrentPage", .num currentPage)] ++
  (if jsTruthy bizID then [("BizID", JSVal.str (bizID.getD ""))] else [])

/-! ### Response mapping -/

/-- The parsed JSON body of a `SendSms` response, as the source reads it:
`Code`, `Message`, `RequestId` and possibly `BizId` (absent = `undefined`). -/
structure SendSmsResp where
  Code : String
  Message : String
  RequestId : String
  BizId : Option String
deriving DecidableEq

/-- Embeds `RespSendSMS` (sms.ts:21-28): `bizID` is the optional receipt id. -/
structure RespSendSMS where
  code : String
  message : String
  requestID : String
  bizID : Option String
deriving DecidableEq

/-- The response mapping inside `sendSMS` (sms.ts:157-172): when
`result.Code !== 'OK'` return code/message/requestID only (after a
diagnostic log), otherwise also copy `BizId`.  No property access in this
branch structure can throw, so the map is total. -/
def mapSendSMSResp (r : SendSmsResp) : RespSendSMS :=
  if r.Code ≠ "OK" then
    { code := r.Code, message := r.Message, requestID := r.RequestId, bizID := none }
  else
    { code := r.Code, message := r.Message, requestID := r.RequestId, bizID := r.BizId }

/-- One record of `result.SmsSendDetailDTOs.SmsSendDetailDTO`, with the
remote's capitalized field names; `SendStatus` keeps its numeric
enumeration value (1 awaiting receipt, 2 failed, 3 succeeded). -/
structure SmsSendDetailDTO where
  TemplateCode : String
  ReceiveDate : String
  PhoneNum : String
  Content : String
  SendStatus : Nat
  SendDate : String
  ErrCode : String
deriving DecidableEq

/-- Embeds `SendDetail` (sms.ts:50-65). -/
structure SendDetail where
  templateCode : String
  receiveDate : String
  phoneNum : String
  content : String
  sendStatus : Nat
  sendDate : String
  errCode : String
deriving DecidableEq

/-- The parsed JSON body of a `QuerySendDetails` response.  The nested list
sits behind two property accesses, each of which may find the field absent
(`undefined`): `SmsSendDetailDTOs = none` models a body without the outer
field, `some none` a body whose outer object lacks the inner
`SmsSendDetailDTO`, and `some (some l)` the list itself. -/
structure QueryResp where
  Code : String
  Message : String
  RequestId : String
  TotalCount : Option Nat
  SmsSendDetailDTOs : Option (Option (List SmsSendDetailDTO))
deriving DecidableEq

/-- Embeds `RespQuerySendDetails` (sms.ts:35-43). -/
structure RespQuerySendDetails where
  code : String
  message : String
  requestID : String
  totalCount : Option Nat
  smsSendDetailDTOs : Option (List SendDetail)
deriving DecidableEq

/-- The per-record field renaming in `querySendDetails` (sms.ts:238-258). -/
def convDetail (v : SmsSendDetailDTO) : SendDetail :=
  { templateCode := v.TemplateCode, receiveDate := v.ReceiveDate,
    phoneNum := v.PhoneNum, content := v.Content, sendDate := v.SendDate,
    sendStatus := v.SendStatus, errCode := v.ErrCode }

/-- The response mapping inside `querySendDetails` (sms.ts:227-266): a
non-`OK` code returns code/message/requestID only; on `OK` the source
evaluates `result.SmsSendDetailDTOs.SmsSendDetailDTO` and maps over it, so a
missing outer field throws a `TypeError` at the inner property access and a
missing inner field throws at `.map` — both modeled as `Except.error`. -/
def mapQueryResp (r : QueryResp) : Except String RespQuerySendDetails :=
  if r.Code ≠ "OK" then
    .ok { code := r.Code, message := r.Message, requestID := r.RequestId,
          totalCount := none, smsSendDetailDTOs := none }
  else
    match r.SmsSendDetailDTOs with
    | none => .error "TypeError: cannot read properties of undefined (reading SmsSendDetailDTO)"
    | some none => .error "TypeError: cannot read properties of undefined (reading map)"
    | some (some dtos) =>
      .ok { code := r.Code, message := r.Message, requestID := r.RequestId,
            totalCount := r.TotalCount,
            smsSendDetailDTOs := some (dtos.map convDetail) }

/-- The concrete parameter mapping of the spec's round-trip vector, in the
insertion order of the repository's own test (`sms.test.ts`). -/
def roundTripParams : List (String × JSVal) :=
  [("Action", .str "DescribeDedicatedHosts"),
   ("AccessKeyId", .str "testid"),
   ("SignatureMethod", .str "HMAC-SHA1"),
   ("SignatureVersion", .str "1.0"),
   ("SignatureNonce", .str "3ee8c1b8-xxxx-xxxx-xxxx-xxxxxxxxx"),
   ("Timestamp", .str "2016-02-23T12:46:24Z"),
   ("Version", .str "2014-05-26"),
   ("Format", .str "XML")]

/-! ### Order facts about the key comparison -/

theorem charListLt_irrefl (l : List Char) : charListLt l l = false := by
  induction l with
  | nil => rfl
  | cons a as ih => simp [charListLt, lt_self_iff_false, ih]

theorem charListLt_trans :
    ∀ {a b c : List Char}, charListLt a b = true → charListLt b c = true →
      charListLt a c = true := by
  intro a
  induction a with
  | nil =>
    intro b c h1 h2
    cases b with
    | nil => simp [charListLt] at h1
    | cons y ys =>
      cases c with
      | nil => simp [charListLt] at h2
      | cons z zs => rfl
  | cons x xs ih =>
    intro b c h1 h2
    cases b with
    | nil => simp [charListLt] at h1
    | cons y ys =>
      cases c with
      | nil => simp [charListLt] at h2
      | cons z zs =>
        simp only [charListLt] at h1 h2 ⊢
        by_cases hxy : x < y
        · by_cases hyz : y < z
          · simp [lt_trans hxy hyz]
          · by_cases hzy : z < y
            · simp [hyz, hzy] at h2
            · have hyzeq : y = z := le_antisymm (not_lt.mp hzy) (not_lt.mp hyz)
              subst hyzeq
              simp [hxy]
        · by_cases hyx : y < x
          · simp [hxy, hyx] at h1
          · have hxyeq : x = y := le_antisymm (not_lt.mp hyx) (not_lt.mp hxy)
            subst hxyeq
            simp only [lt_self_iff_false, if_false, ite_false] at h1
            by_cases hyz : x < z
            · simp [hyz]
            · by_cases hzy : z < x
              · simp [hyz, hzy] at h2
              · have hxzeq : x = z := le_antisymm (not_lt.mp hzy) (not_lt.mp hyz)
                subst hxzeq
                simp only [lt_self_iff_false, if_false, ite_false] at h2 ⊢
                exact ih h1 h2

theorem charListLt_eq_of_not_lt :
    ∀ {a b : List Char}, charListLt a b = false → charListLt b a = false →
      a = b := by
  intro a
  induction a with
  | nil =>
    intro b h1 _
    cases b with
    | nil => rfl
    | cons y ys => simp [charListLt] at h1
  | cons x xs ih =>
    intro b h1 h2
    cases b with
    | nil => simp [charListLt] at h2
    | cons y ys =>
      simp only [charListLt] at h1 h2
      by_cases hxy : x < y
      · simp [hxy] at h1
      · by_cases hyx : y < x
        · simp [hxy, hyx] at h2
        · have hxyeq : x = y := le_antisymm (not_lt.mp hyx) (not_lt.mp hxy)
          subst hxyeq
          simp only [lt_self_iff_false, if_false, ite_false] at h1 h2
          exact congrArg (x :: ·) (ih h1 h2)

theorem charListLt_asymm {a b : List Char} (h : charListLt a b = true) :
    charListLt b a = false := by
  cases hba : charListLt b a with
  | false => rfl
  | true =>
    have := charListLt_trans h hba
    simp [charListLt_irrefl] at this

theorem strLtJS_eq_of_not_lt {a b : String} (h1 : strLtJS a b = false)
    (h2 : strLtJS b a = false) : a = b := by
  cases a with
  | mk da =>
    cases b with
    | mk db => exact congrArg String.mk (charListLt_eq_of_not_lt h1 h2)

instance : IsTotal (String × JSVal) keyLe where
  total a b := by
    unfold keyLe
    cases h : strLtJS b.1 a.1 with
    | false => exact Or.inl rfl
    | true => exact Or.inr (charListLt_asymm h)

instance : IsTrans (String × JSVal) keyLe where
  trans a b c h1 h2 := by
    unfold keyLe at h1 h2 ⊢
    cases hca : strLtJS c.1 a.1 with
    | false => rfl
    | true =>
      cases hab : strLtJS a.1 b.1 with
      | false =>
        have hab' : a.1 = b.1 := strLtJS_eq_of_not_lt hab h1
        rw [hab'] at hca
        rw [h2] at hca
        exact Bool.noConfusion hca
      | true =>
        have hcb : strLtJS c.1 b.1 = true := charListLt_trans hca hab
        rw [h2] at hcb
        exact Bool.noConfusion hcb

/-! ### Relating the folded string of `specParams` to `specPairs` -/

theorem string_ext {s t : String} (h : s.data = t.data) : s = t := by
  cases s
  cases t
  exact congrArg String.mk h

/-- The `&`-prefixed concatenation the source's `forEach` loop accumulates. -/
def preAmp : List String → String
  | [] => ""
  | x :: rest => "&" ++ x ++ preAmp rest

theorem specParams_foldl (l : List (String × JSVal)) (acc : String) :
    l.foldl
      (fun acc kv =>
        if kv.1 ≠ "Signature" then
          acc ++ "&" ++ kv.1 ++ "=" ++ encodeURIComponent (jsValToString kv.2)
        else acc) acc
    = acc ++ preAmp ((l.filter fun kv => kv.1 != "Signature").map
        (fun kv => renderPair (kv.1, encodeURIComponent (jsValToString kv.2)))) := by
  induction l generalizing acc with
  | nil =>
    apply string_ext
    simp [preAmp, String.data_append]
  | cons kv l ih =>
    by_cases h : kv.1 = "Signature"
    · simp only [List.foldl_cons, List.filter_cons, h]
      rw [if_neg (by simp [h]), if_neg (by simp)]
      exact ih acc
    · simp only [List.foldl_cons, List.filter_cons]
      rw [if_pos h, if_pos (by simp [h])]
      rw [ih]
      apply string_ext
      simp [preAmp, renderPair, String.data_append]

theorem preAmp_drop_one (segs : List String) :
    (⟨(preAmp segs).data.drop 1⟩ : String) = ampJoin segs := by
  induction segs with
  | nil => rfl
  | cons x segs ih =>
    have hdata : (preAmp (x :: segs)).data = '&' :: (x.data ++ (preAmp segs).data) := by
      simp [preAmp, String.data_append]
    cases segs with
    | nil =>
      apply string_ext
      simp [hdata, ampJoin, preAmp]
    | cons y rest =>
      have ihdata : (ampJoin (y :: rest)).data = (preAmp (y :: rest)).data.drop 1 := by
        rw [← ih]
      have hy : (preAmp (y :: rest)).data = '&' :: (y.data ++ (preAmp rest).data) := by
        simp [preAmp, String.data_append]
      apply string_ext
      simp only [hdata, List.drop_succ_cons, List.drop_zero, ampJoin,
        String.data_append, ihdata, hy]
      simp

theorem string_empty_append (s : String) : "" ++ s = s := by
  apply string_ext
  simp [String.data_append]

theorem specParams_eq_ampJoin (params : List (String × JSVal)) :
    specParams params = ampJoin ((specPairs params).map renderPair) := by
  have hdef : specParams params = ⟨(List.foldl
      (fun acc kv =>
        if kv.1 ≠ "Signature" then
          acc ++ "&" ++ kv.1 ++ "=" ++ encodeURIComponent (jsValToString kv.2)
        else acc) "" (List.insertionSort keyLe params)).data.drop 1⟩ := rfl
  rw [hdef, specParams_foldl, string_empty_append, preAmp_drop_one]
  unfold specPairs
  rw [List.map_map]
  rfl

/-! ### Sorted-permutation uniqueness for the canonicalization -/

/-- Strict key order on pairs: the relation under which a sorted,
key-duplicate-free parameter list is unique among its permutations. -/
def keyLt (a b : String × JSVal) : Prop := strLtJS a.1 b.1 = true

instance : IsAntisymm (String × JSVal) keyLt where
  antisymm a b h1 h2 := by
    unfold keyLt strLtJS at h1 h2
    rw [charListLt_asymm h1] at h2
    exact Bool.noConfusion h2

theorem insertionSort_eq_of_perm {l1 l2 : List (String × JSVal)}
    (hperm : l1.Perm l2) (hnodup : (l1.map Prod.fst).Nodup) :
    List.insertionSort keyLe l1 = List.insertionSort keyLe l2 := by
  have hperm1 : (List.insertionSort keyLe l1).Perm l1 := List.perm_insertionSort keyLe l1
  have hperm2 : (List.insertionSort keyLe l2).Perm l2 := List.perm_insertionSort keyLe l2
  have hnodup2 : (l2.map Prod.fst).Nodup := ((hperm.map Prod.fst).nodup_iff).mp hnodup
  have hsortnodup1 : ((List.insertionSort keyLe l1).map Prod.fst).Nodup :=
    ((hperm1.map Prod.fst).nodup_iff).mpr hnodup
  have hsortnodup2 : ((List.insertionSort keyLe l2).map Prod.fst).Nodup :=
    ((hperm2.map Prod.fst).nodup_iff).mpr hnodup2
  have hne1 : (List.insertionSort keyLe l1).Pairwise (fun a b => a.1 ≠ b.1) :=
    List.pairwise_map.mp hsortnodup1
  have hne2 : (List.insertionSort keyLe l2).Pairwise (fun a b => a.1 ≠ b.1) :=
    List.pairwise_map.mp hsortnodup2
  have hstrict : ∀ {a b : String × JSVal}, keyLe a b ∧ a.1 ≠ b.1 → keyLt a b := by
    intro a b hab
    unfold keyLe at hab
    unfold keyLt
    cases h : strLtJS a.1 b.1 with
    | true => rfl
    | false => exact absurd (strLtJS_eq_of_not_lt h hab.1) hab.2
  have hsorted1 : List.Sorted keyLt (List.insertionSort keyLe l1) :=
    ((List.sorted_insertionSort keyLe l1).and hne1).imp hstrict
  have hsorted2 : List.Sorted keyLt (List.insertionSort keyLe l2) :=
    ((List.sorted_insertionSort keyLe l2).and hne2).imp hstrict
  exact List.eq_of_perm_of_sorted
    (hperm1.trans (hperm.trans hperm2.symm)) hsorted1 hsorted2

/-! ### Byte bounds for the percent-escape -/

theorem char_toNat_lt (c : Char) : c.toNat < 1114112 := by
  rcases c.valid with h | h
  · exact Nat.lt_trans h (by norm_num)
  · exact h.2

theorem utf8Bytes_lt (c : Char) : ∀ b ∈ utf8Bytes c, b < 256 := by
  intro b hb
  have hc := char_toNat_lt c
  by_cases h1 : c.toNat < 128
  · simp [utf8Bytes, h1] at hb
    omega
  · by_cases h2 : c.toNat < 2048
    · simp [utf8Bytes, h1, h2] at hb
      rcases hb with hb | hb <;> omega
    · by_cases h3 : c.toNat < 65536
      · simp [utf8Bytes, h1, h2, h3] at hb
        rcases hb with hb | hb | hb <;> omega
      · simp [utf8Bytes, h1, h2, h3] at hb
        rcases hb with hb | hb | hb | hb <;> omega

theorem hexDigitUpper_mem (n : Nat) (h : n < 16) :
    hexDigitUpper n ∈ ("0123456789ABCDEF" : String).data := by
  interval_cases n <;> decide

/-! ### The claims -/

/-- C1: for the spec's round-trip parameter mapping, composing the
canonicalization step `specParams` with the string-to-sign step
`stringToSign` (method `GET`) yields exactly the literal string of the spec's
round-trip vector. -/
theorem c1_round_trip_vector :
    stringToSign "GET" (specParams roundTripParams) =
    "GET&%2F&AccessKeyId%3Dtestid%26Action%3DDescribeDedicatedHosts%26Format%3DXML%26SignatureMethod%3DHMAC-SHA1%26SignatureNonce%3D3ee8c1b8-xxxx-xxxx-xxxx-xxxxxxxxx%26SignatureVersion%3D1.0%26Timestamp%3D2016-02-23T12%253A46%253A24Z%26Version%3D2014-05-26" := by
  rfl

/-- C2: signing the spec's string-to-sign with secret `testsecret` — HMAC-SHA1
with key `secret + "&"`, base64-encoded with padding (`hmac`) — yields exactly
`rARsF+BIg8pZ4e0ln6Z96lBMDms=`. -/
theorem c2_signature_vector :
    hmac "GET&%2F&AccessKeyId%3Dtestid%26Action%3DDescribeDedicatedHosts%26Format%3DXML%26SignatureMethod%3DHMAC-SHA1%26SignatureNonce%3D3ee8c1b8-xxxx-xxxx-xxxx-xxxxxxxxx%26SignatureVersion%3D1.0%26Timestamp%3D2016-02-23T12%253A46%253A24Z%26Version%3D2014-05-26"
      "testsecret" = "rARsF+BIg8pZ4e0ln6Z96lBMDms=" := by
  rfl

/-- C3 counterexample: `specParams` does NOT percent-encode `*` — the value
`"*"` passes through verbatim (`encodeURIComponent` leaves `*` unescaped),
so the canonical string contains a literal `*` where the claim requires
`%2A`. -/
theorem c3_counterexample_star_unencoded :
    specParams [("A", JSVal.str "*")] = "A=*" ∧
    specParams [("A", JSVal.str "*")] ≠ "A=%2A" := by
  constructor
  · rfl
  · decide

/-- C3 (amended): `specParams` percent-encodes every character of a value
outside JS `encodeURIComponent`'s unescaped set (alphanumerics and
`- _ . ! ~ * ' ( )`) — each such character becomes one `%XY` escape per
UTF-8 byte — and in particular `+` is encoded as `%2B` and space as `%20`
rather than `+`; but the non-unreserved characters `* ! ' ( )` are in that
set and are NOT percent-encoded (`*` stays `*`). -/
theorem c3_value_encoding :
    (∀ c : Char, isURIUnreservedJS c = true → encURIChar c = [c]) ∧
    (∀ c : Char, isURIUnreservedJS c = false →
      ∀ d ∈ encURIChar c, d = '%' ∨ d ∈ ("0123456789ABCDEF" : String).data) ∧
    encodeURIComponent " " = "%20" ∧
    encodeURIComponent "+" = "%2B" ∧
    encodeURIComponent "*" = "*" ∧
    (∀ (k : String) (v : JSVal), k ≠ "Signature" →
      specParams [(k, v)] = k ++ "=" ++ encodeURIComponent (jsValToString v)) := by
  refine ⟨?_, ?_, rfl, rfl, rfl, ?_⟩
  · intro c h
    simp [encURIChar, h]
  · intro c h d hd
    simp only [encURIChar, h, Bool.false_eq_true, if_false, List.mem_flatMap] at hd
    rcases hd with ⟨b, hb, hdb⟩
    have hb256 : b < 256 := utf8Bytes_lt c b hb
    simp only [pctByte, List.mem_cons, List.not_mem_nil, or_false] at hdb
    rcases hdb with hdb | hdb | hdb
    · exact Or.inl hdb
    · exact Or.inr (hdb ▸ hexDigitUpper_mem (b / 16) (by omega))
    · exact Or.inr (hdb ▸ hexDigitUpper_mem (b % 16) (by omega))
  · intro k v hk
    have hdef : specParams [(k, v)] =
        ⟨(if k ≠ "Signature" then
            ("" : String) ++ "&" ++ k ++ "=" ++ encodeURIComponent (jsValToString v)
          else "").data.drop 1⟩ := rfl
    rw [hdef, if_pos hk]
    apply string_ext
    simp only [String.data_append, show ("" : String).data = [] from rfl,
      show ("&" : String).data = ['&'] from rfl,
      show ("=" : String).data = ['='] from rfl]
    simp

/-- C3 witness: the amended encoding facts at concrete inputs — `:` (not in
the unescaped set) encodes to escape characters only, `a` passes through. -/
theorem c3_value_encoding_witness :
    encURIChar 'a' = ['a'] ∧
    ('3' = '%' ∨ '3' ∈ ("0123456789ABCDEF" : String).data) ∧
    specParams [("Timestamp", JSVal.str ":")] =
      "Timestamp" ++ "=" ++ encodeURIComponent ":" := by
  refine ⟨c3_value_encoding.1 'a' (by decide), ?_, ?_⟩
  · exact c3_value_encoding.2.1 ':' (by decide) '3' (by decide)
  · exact c3_value_encoding.2.2.2.2.2 "Timestamp" (JSVal.str ":") (by decide)

/-- C4: a `Signature` entry never appears in the canonical query string built
by `specParams` (whose `key=value` segments are exactly `specPairs`); every
other entry does appear, with its value encoded. -/
theorem c4_signature_excluded (params : List (String × JSVal)) :
    "Signature" ∉ (specPairs params).map Prod.fst ∧
    (∀ kv ∈ params, kv.1 ≠ "Signature" →
      (kv.1, encodeURIComponent (jsValToString kv.2)) ∈ specPairs params) ∧
    specParams params = ampJoin ((specPairs params).map renderPair) := by
  refine ⟨?_, ?_, specParams_eq_ampJoin params⟩
  · intro hmem
    rcases List.mem_map.mp hmem with ⟨kv2, hkv2, hfst⟩
    rcases List.mem_map.mp hkv2 with ⟨kv, hkv, henc⟩
    rcases List.mem_filter.mp hkv with ⟨_, hpred⟩
    rw [← henc] at hfst
    simp only [bne_iff_ne, ne_eq] at hpred
    exact hpred hfst
  · intro kv hkv hne
    apply List.mem_map.mpr
    refine ⟨kv, ?_, rfl⟩
    apply List.mem_filter.mpr
    refine ⟨((List.perm_insertionSort keyLe params).mem_iff).mpr hkv, ?_⟩
    simpa using hne

/-- C4 witness: at a concrete mapping holding a `Signature` entry. -/
theorem c4_signature_excluded_witness :
    "Signature" ∉
      (specPairs [("Signature", JSVal.str "s"), ("Action", JSVal.str "SendSms")]).map
        Prod.fst ∧
    ("Action", encodeURIComponent "SendSms") ∈
      specPairs [("Signature", JSVal.str "s"), ("Action", JSVal.str "SendSms")] := by
  refine ⟨(c4_signature_excluded _).1, ?_⟩
  have h := (c4_signature_excluded
    [("Signature", JSVal.str "s"), ("Action", JSVal.str "SendSms")]).2.1
    ("Action", JSVal.str "SendSms") (by simp) (by decide)
  exact h

/-- C5: `specParams` is deterministic and insertion-order independent — on two
parameter lists that are permutations of one another (a JS object: same keys
and values, any insertion order, no duplicate keys) it produces the same
canonical string, because the output is sorted by ascending code-unit key
order. -/
theorem c5_canonicalization_deterministic (l1 l2 : List (String × JSVal))
    (hperm : l1.Perm l2) (hnodup : (l1.map Prod.fst).Nodup) :
    specParams l1 = specParams l2 := by
  have h := insertionSort_eq_of_perm hperm hnodup
  unfold specParams
  rw [h]

/-- C5 witness: two insertion orders of the same two-entry mapping. -/
theorem c5_canonicalization_deterministic_witness :
    specParams [("B", JSVal.str "2"), ("A", JSVal.str "1")] =
    specParams [("A", JSVal.str "1"), ("B", JSVal.str "2")] := by
  exact c5_canonicalization_deterministic _ _
    (by apply List.Perm.swap) (by decide)

set_option maxHeartbeats 4000000 in
/-- C6: in the request parameter set that `sendSMS` builds, the canonical
query string maps `PhoneNumbers` to the percent-encoding of the comma-joined
phone-number list (`String(array)` joins with commas before
`encodeURIComponent`). -/
theorem c6_phone_numbers_comma_joined (accessKeyID timestamp : String)
    (nonce : Nat) (phoneNumbers : List String) (signName tplCode : String)
    (tplParam : Option String) (hne : phoneNumbers ≠ []) :
    List.lookup "PhoneNumbers"
      (specPairs (sendSMSParams accessKeyID timestamp nonce phoneNumbers
        signName tplCode tplParam))
    = some (encodeURIComponent (String.intercalate "," phoneNumbers)) := by
  match tplParam with
  | none => rfl
  | some s =>
    by_cases hs : s = ""
    · subst hs
      rfl
    · have hguard : jsTruthy (some s) = true := by
        simp [jsTruthy, hs]
      unfold sendSMSParams
      rw [hguard]
      rfl

/-- C6 witness: a concrete two-number send request. -/
theorem c6_phone_numbers_comma_joined_witness :
    List.lookup "PhoneNumbers"
      (specPairs (sendSMSParams "testid" "2016-02-23T12:46:24Z" 7
        ["15135654070", "15135654071"] "sig" "SMS_8170249" none))
    = some (encodeURIComponent
        (String.intercalate "," ["15135654070", "15135654071"])) := by
  exact c6_phone_numbers_comma_joined "testid" "2016-02-23T12:46:24Z" 7
    ["15135654070", "15135654071"] "sig" "SMS_8170249" none (by decide)

/-- C7: `sendSMS`'s response mapping is a total function (it resolves with a
structured result, never throws): it always carries the remote code, message
and request id; when `Code ≠ "OK"` the `bizID` field is absent, and when
`Code = "OK"` it is populated from the response's `BizId`. -/
theorem c7_send_response_mapping (r : SendSmsResp) :
    (mapSendSMSResp r).code = r.Code ∧
    (mapSendSMSResp r).message = r.Message ∧
    (mapSendSMSResp r).requestID = r.RequestId ∧
    (r.Code ≠ "OK" → (mapSendSMSResp r).bizID = none) ∧
    (r.Code = "OK" → (mapSendSMSResp r).bizID = r.BizId) := by
  by_cases h : r.Code = "OK" <;> simp [mapSendSMSResp, h]

/-- C7 witness: the spec's failure-mapping mock — even with a `BizId` present
in the body, a non-`OK` code yields a result with no `bizID`. -/
theorem c7_send_response_mapping_witness :
    (mapSendSMSResp
      { Code := "isv.BUSINESS_LIMIT_CONTROL", Message := "limit",
        RequestId := "r2", BizId := some "b1" }).bizID = none := by
  exact (c7_send_response_mapping _).2.2.2.1 (by decide)

/-- C8 counterexample: a success response (`Code = "OK"`) with no nested
detail list makes `querySendDetails` throw (the unconditional
`result.SmsSendDetailDTOs.SmsSendDetailDTO` access), rather than defaulting
to absent fields. -/
theorem c8_counterexample_missing_details :
    mapQueryResp
      { Code := "OK", Message := "OK", RequestId := "r1",
        TotalCount := some 1, SmsSendDetailDTOs := none }
    = Except.error
        "TypeError: cannot read properties of undefined (reading SmsSendDetailDTO)" := by
  rfl

/-- C8 (amended): on a success response missing the nested detail list (the
outer `SmsSendDetailDTOs` field absent, or present without the inner
`SmsSendDetailDTO` list) `querySendDetails` raises a `TypeError` instead of
defaulting; only the scalar optional field `TotalCount` defaults to absent
without an error, when the nested list itself is present. -/
theorem c8_missing_details_raises (r : QueryResp) (hok : r.Code = "OK") :
    (r.SmsSendDetailDTOs = none ∨ r.SmsSendDetailDTOs = some none →
      ∃ e, mapQueryResp r = Except.error e) ∧
    (∀ l, r.SmsSendDetailDTOs = some (some l) →
      mapQueryResp r = Except.ok
        { code := r.Code, message := r.Message, requestID := r.RequestId,
          totalCount := r.TotalCount,
          smsSendDetailDTOs := some (l.map convDetail) }) := by
  constructor
  · intro hmiss
    rcases hmiss with h | h
    · exact ⟨"TypeError: cannot read properties of undefined (reading SmsSendDetailDTO)",
        by simp [mapQueryResp, hok, h]⟩
    · exact ⟨"TypeError: cannot read properties of undefined (reading map)",
        by simp [mapQueryResp, hok, h]⟩
  · intro l hl
    simp [mapQueryResp, hok, hl]

/-- C8 witness: the amended facts at concrete responses — a missing outer
field errors; a present list with absent `TotalCount` succeeds with
`totalCount = none`. -/
theorem c8_missing_details_raises_witness :
    (∃ e, mapQueryResp
      { Code := "OK", Message := "OK", RequestId := "r1",
        TotalCount := none, SmsSendDetailDTOs := none } = Except.error e) ∧
    mapQueryResp
      { Code := "OK", Message := "OK", RequestId := "r1",
        TotalCount := none, SmsSendDetailDTOs := some (some []) }
    = Except.ok
        { code := "OK", message := "OK", requestID := "r1",
          totalCount := none, smsSendDetailDTOs := some [] } := by
  constructor
  · exact (c8_missing_details_raises _ rfl).1 (Or.inl rfl)
  · exact (c8_missing_details_raises _ rfl).2 [] rfl

/-- C9: on a success response carrying a nested list of delivery-detail
records, `querySendDetails` returns a detail sequence of the same length in
the same order, each entry renaming the remote fields one-to-one
(`TemplateCode → templateCode`, ..., `ErrCode → errCode`) with `sendStatus`
keeping its numeric enumeration value. -/
theorem c9_detail_mapping (r : QueryResp) (l : List SmsSendDetailDTO)
    (hok : r.Code = "OK") (hl : r.SmsSendDetailDTOs = some (some l)) :
    ∃ res, mapQueryResp r = Except.ok res ∧
      ∃ dl, res.smsSendDetailDTOs = some dl ∧ dl.length = l.length ∧
        ∀ i, (hi : i < l.length) → ∃ hi2 : i < dl.length,
          (dl.get ⟨i, hi2⟩).templateCode = (l.get ⟨i, hi⟩).TemplateCode ∧
          (dl.get ⟨i, hi2⟩).receiveDate = (l.get ⟨i, hi⟩).ReceiveDate ∧
          (dl.get ⟨i, hi2⟩).phoneNum = (l.get ⟨i, hi⟩).PhoneNum ∧
          (dl.get ⟨i, hi2⟩).content = (l.get ⟨i, hi⟩).Content ∧
          (dl.get ⟨i, hi2⟩).sendStatus = (l.get ⟨i, hi⟩).SendStatus ∧
          (dl.get ⟨i, hi2⟩).sendDate = (l.get ⟨i, hi⟩).SendDate ∧
          (dl.get ⟨i, hi2⟩).errCode = (l.get ⟨i, hi⟩).ErrCode := by
  refine ⟨⟨r.Code, r.Message, r.RequestId, r.TotalCount, some (l.map convDetail)⟩,
    by simp [mapQueryResp, hok, hl], l.map convDetail, rfl,
    List.length_map l convDetail, ?_⟩
  intro i hi
  refine ⟨by simpa using hi, ?_⟩
  simp [List.get_map, convDetail]

/-- C9 witness: the spec's one-record mock query response. -/
theorem c9_detail_mapping_witness :
    ∃ res, mapQueryResp
      { Code := "OK", Message := "OK", RequestId := "r1",
        TotalCount := some 1,
        SmsSendDetailDTOs := some (some
          [{ TemplateCode := "SMS_8170249", ReceiveDate := "2022-08-12 10:01:00",
             PhoneNum := "15135654070", Content := "hello", SendStatus := 3,
             SendDate := "2022-08-12 10:00:00", ErrCode := "DELIVERED" }]) }
      = Except.ok res ∧
      ∃ dl, res.smsSendDetailDTOs = some dl ∧ dl.length = 1 ∧
        ∀ i, (hi : i < 1) → ∃ hi2 : i < dl.length, True := by
  rcases c9_detail_mapping
    { Code := "OK", Message := "OK", RequestId := "r1",
      TotalCount := some 1,
      SmsSendDetailDTOs := some (some
        [{ TemplateCode := "SMS_8170249", ReceiveDate := "2022-08-12 10:01:00",
           PhoneNum := "15135654070", Content := "hello", SendStatus := 3,
           SendDate := "2022-08-12 10:00:00", ErrCode := "DELIVERED" }]) }
    [{ TemplateCode := "SMS_8170249", ReceiveDate := "2022-08-12 10:01:00",
       PhoneNum := "15135654070", Content := "hello", SendStatus := 3,
       SendDate := "2022-08-12 10:00:00", ErrCode := "DELIVERED" }]
    rfl rfl with ⟨res, hres, dl, hdl, hlen, hfields⟩
  have hlen1 : dl.length = 1 := by simpa using hlen
  exact ⟨res, hres, dl, hdl, hlen1, fun i hi => ⟨by omega, trivial⟩⟩

/-- C10: passing `tplParam = ""` to `sendSMS` builds exactly the parameter
set built when `tplParam` is omitted (no `TemplateParam` key), and likewise
`querySendDetails` with `bizID = ""` includes no `BizID` key: the JS `if (x)`
guard treats the empty string as absent. -/
theorem c10_empty_optional_args (accessKeyID timestamp : String) (nonce : Nat)
    (phoneNumbers : List String) (signName tplCode : String)
    (phoneNumber sendDate : String) (pageSize currentPage : Nat) :
    sendSMSParams accessKeyID timestamp nonce phoneNumbers signName tplCode
        (some "") =
      sendSMSParams accessKeyID timestamp nonce phoneNumbers signName tplCode
        none ∧
    "TemplateParam" ∉ (sendSMSParams accessKeyID timestamp nonce phoneNumbers
        signName tplCode (some "")).map Prod.fst ∧
    querySendDetailsParams accessKeyID timestamp nonce phoneNumber sendDate
        pageSize currentPage (some "") =
      querySendDetailsParams accessKeyID timestamp nonce phoneNumber sendDate
        pageSize currentPage none ∧
    "BizID" ∉ (querySendDetailsParams accessKeyID timestamp nonce phoneNumber
        sendDate pageSize currentPage (some "")).map Prod.fst := by
  refine ⟨rfl, ?_, rfl, ?_⟩ <;>
    simp [sendSMSParams, querySendDetailsParams, jsTruthy]
